import Mathlib

/-!
Verification of the extraction-and-acquisition pipeline of the
Google Scholar crawling tool (src/scholar.js, src/downloader.js,
src/index.js orchestrator, src/config.js).

The JavaScript source is shallowly embedded: pure string manipulation
becomes Lean functions on `List Char`, the network and the browser are
passed in as explicit oracles (`Option`-returning functions; `none`
models a JS function that threw or returned `null`), and promise
rejection is an `Except` error.  JS string truthiness (`if (s)`) is
modelled by `none`/empty-string tests, exactly as the code consults it.
-/

/-- Substring test on character lists: does the list start with `pat`? -/
def startsWithL : List Char → List Char → Bool
  | _, [] => true
  | [], _ :: _ => false
  | c :: cs, d :: ds => c == d && startsWithL cs ds

/-- JS `String.prototype.includes`: `containsSub hay pat` is true iff `pat`
occurs contiguously inside `hay` (the empty pattern always occurs). -/
def containsSub : List Char → List Char → Bool
  | [], pat => pat.isEmpty
  | c :: cs, pat => startsWithL (c :: cs) pat || containsSub cs pat

/-- String-level wrapper for `containsSub`, the model of `hay.includes(pat)`. -/
def strContains (hay pat : String) : Bool :=
  containsSub hay.data pat.data

/-- JS truthiness of a nullable string: `null` and `""` are falsy,
every other string is truthy. -/
def isTruthy (o : Option String) : Bool :=
  match o with
  | Option.none => false
  | Option.some s => !(s == "")

/-- JS `String.prototype.toLowerCase`, modelled character-wise (ASCII case
mapping, which is all the lowercase patterns `"captcha"` and `".pdf"` need). -/
def toLowerStr (s : String) : String :=
  String.mk (s.data.map Char.toLower)

/-- The character class of the JS regex `\s` (ECMAScript WhiteSpace and
LineTerminator), used by `sanitizeFilename`'s two `replace` calls. -/
def jsWhitespace (c : Char) : Bool :=
  c == ' ' || c == '\t' || c == '\n' || c == '\x0b' || c == '\x0c' || c == '\r' ||
  c == '\u00A0' || c == '\u1680' || c == '\u2000' || c == '\u2001' || c == '\u2002' ||
  c == '\u2003' || c == '\u2004' || c == '\u2005' || c == '\u2006' || c == '\u2007' ||
  c == '\u2008' || c == '\u2009' || c == '\u200A' || c == '\u2028' || c == '\u2029' ||
  c == '\u202F' || c == '\u205F' || c == '\u3000' || c == '\uFEFF'

/-- JS `String.prototype.trim`: remove leading and trailing WhiteSpace and
LineTerminator characters (the same class as `\s`). -/
def trimStr (s : String) : String :=
  String.mk (((s.data.dropWhile jsWhitespace).reverse.dropWhile jsWhitespace).reverse)

/-- The character class kept by the first replace of `sanitizeFilename`,
`/[^a-z0-9\s\-_]/gi`: ASCII letters (both cases via the `i` flag), digits,
whitespace, hyphen and underscore. -/
def keepChar (c : Char) : Bool :=
  c.isLower || c.isUpper || c.isDigit || jsWhitespace c || c == '-' || c == '_'

/-- The second replace of `sanitizeFilename`, `/\s+/g → "_"`: each maximal
run of whitespace becomes one underscore.  The Boolean flag records whether
the previous character belonged to a whitespace run. -/
def collapseWsRuns : Bool → List Char → List Char
  | _, [] => []
  | prevWs, c :: rest =>
    if jsWhitespace c then
      if prevWs then collapseWsRuns true rest
      else '_' :: collapseWsRuns true rest
    else c :: collapseWsRuns false rest

/-- Embeds `sanitizeFilename` from src/downloader.js:
`name.replace(/[^a-z0-9\s\-_]/gi, '').replace(/\s+/g, '_').substring(0, 80)`.
After the first replace every remaining character is ASCII or a single
`\s` character, so `substring(0, 80)` counts the same units as `take 80`. -/
def sanitizeFilename (name : String) : String :=
  String.mk ((collapseWsRuns false (name.data.filter keepChar)).take 80)

/-- Characters allowed in a sanitized filename: `[A-Za-z0-9_-]`. -/
def safeChar (c : Char) : Bool :=
  c.isLower || c.isUpper || c.isDigit || c == '-' || c == '_'

/-- The output-file name pattern `[A-Za-z0-9_-]{0,80}` from the claim. -/
def matchesSafeName (s : String) : Prop :=
  s.data.length ≤ 80 ∧ s.data.all safeChar = true

/-- Value of `OUTPUT_DIR` in src/config.js. -/
def OUTPUT_DIR : String := "./output/pdfs"

/-- The destination path built by `downloadPDF`:
`path.join(config.OUTPUT_DIR, safeName + ".pdf")` (the join modelled as
directory, separator, file name). -/
def outputPath (filename : String) : String :=
  OUTPUT_DIR ++ "/" ++ sanitizeFilename filename ++ ".pdf"

/-- The HTTP response seen by `downloadPDF`: `ok` is `response.ok`,
`contentType` the (nullable) `content-type` header, `body` the byte
buffer returned by `response.buffer()`. -/
structure FetchResponse where
  ok : Bool
  contentType : Option String
  body : List Nat
deriving DecidableEq

/-- The five magic bytes of the literal signature `%PDF-`. -/
def pdfMagic : List Nat := [37, 80, 68, 70, 45]

/-- Embeds `downloadPDF` from src/downloader.js.  The network fetch is
passed in by result: `none` models `fetch` rejecting (network error or
timeout), `some r` a delivered response.  The return value carries the
side effect: `some (path, bytes)` means the body was written to `path`
and the path returned; `none` means nothing was written and `null` was
returned (every internal failure is caught inside the function, so the
embedding is total).  The signature check mirrors
`buffer.length < 5 || buffer.toString('ascii', 0, 5) !== '%PDF-'`:
Node's `'ascii'` decoding clears the top bit of each byte before
comparing, hence the `% 128`. -/
def downloadPDF (resp : Option FetchResponse) (filename : String) :
    Option (String × List Nat) :=
  match resp with
  | Option.none => Option.none
  | Option.some r =>
    if !r.ok then Option.none
    else
      let contentType := r.contentType.getD ""
      if !(strContains contentType "pdf" || strContains contentType "octet-stream") then
        Option.none
      else if r.body.length < 5 || !((r.body.take 5).map (fun b => b % 128) == pdfMagic) then
        Option.none
      else Option.some (outputPath filename, r.body)

/-- Modelled from the claim's parenthetical description of sanitization
(strip every character outside `[A-Za-z0-9 _-]` with a literal space,
collapse runs of whitespace to a single underscore, truncate to 80
characters), kept separate from `sanitizeFilename` so the two can be
compared. -/
def claimSanitizeDescr (name : String) : String :=
  String.mk ((collapseWsRuns false
    (name.data.filter (fun c =>
      c.isLower || c.isUpper || c.isDigit || c == ' ' || c == '-' || c == '_'))).take 80)

/-- Modelled from the spec: the amended description of sanitization —
strip every character that is neither an ASCII letter, a digit,
whitespace, a hyphen nor an underscore; collapse whitespace runs to one
underscore; truncate to 80 characters.  Run collapsing is written here
with a look-ahead formulation (a whitespace character is dropped while
the run continues and emits the underscore at the run's end), an
implementation independent of `collapseWsRuns`. -/
def collapseWsSpec : List Char → List Char
  | [] => []
  | [c] => if jsWhitespace c then ['_'] else [c]
  | c :: d :: rest =>
    if jsWhitespace c then
      if jsWhitespace d then collapseWsSpec (d :: rest)
      else '_' :: collapseWsSpec (d :: rest)
    else c :: collapseWsSpec (d :: rest)

/-- Spec-side sanitization built from `collapseWsSpec`. -/
def specSanitize (name : String) : String :=
  String.mk ((collapseWsSpec
    (name.data.filter (fun c => c.isAlphanum || jsWhitespace c || c == '-' || c == '_'))).take 80)

example : sanitizeFilename "a\tb" = "a_b" := by decide
example : claimSanitizeDescr "a\tb" = "ab" := by decide
example : sanitizeFilename "My Paper: A Study?" = "My_Paper_A_Study" := by decide
example : downloadPDF (Option.some ⟨true, Option.some "application/pdf", [37, 80, 68, 70, 45, 49]⟩) "t"
    = Option.some (outputPath "t", [37, 80, 68, 70, 45, 49]) := by decide
example : downloadPDF (Option.some ⟨true, Option.some "text/html", [37, 80, 68, 70, 45]⟩) "t"
    = Option.none := by decide
example : downloadPDF (Option.some ⟨true, Option.some "application/pdf", [165, 80, 68, 70, 45]⟩) "t"
    = Option.some (outputPath "t", [165, 80, 68, 70, 45]) := by decide

deriving instance DecidableEq for Except

/-- An anchor element as seen from `page.evaluate`: `href` is the resolved
`el.href` property (the empty string when the anchor has no href attribute)
and `text` its `textContent`. -/
structure Anchor where
  href : String
  text : String
deriving DecidableEq

/-- One result block (a `.gs_r.gs_or.gs_scl` node) of the rendered results
page: the primary title anchor (`.gs_rt a`), the metadata text (`.gs_a`),
the alternate-source anchor (`.gs_or_ggsm a`), and every anchor of the
block in DOM order. -/
structure ResultItem where
  titleAnchor : Option Anchor
  metaText : Option String
  ggsAnchor : Option Anchor
  allAnchors : List Anchor
deriving DecidableEq

/-- The rendered results document as consulted by `extractResults`:
`document.title`, presence of `form#captcha-form`, presence of
`#recaptcha`, presence of the results container `#gs_res_ccl_mid`, and
the result blocks in visual top-to-bottom order. -/
structure RenderedDoc where
  title : String
  hasCaptchaForm : Bool
  hasRecaptcha : Bool
  hasResultsContainer : Bool
  items : List ResultItem
deriving DecidableEq

/-- One discovered search result, as built by `extractResults`
(src/scholar.js): `{ title, paperUrl, directPdfUrl, meta }`.  `none`
models a JS `null` field. -/
structure PaperRecord where
  title : String
  paperUrl : Option String
  directPdfUrl : Option String
  meta : String
deriving DecidableEq

/-- Errors thrown by `extractResults`: the CAPTCHA error thrown on block
detection (named `BlockedByAntiBot` by the design document) and the
timeout of `waitForSelector` on the results container. -/
inductive ExtractError
  | blockedByAntiBot
  | resultsTimeout
deriving DecidableEq

/-- Embeds the CAPTCHA check at the top of `extractResults`:
`document.title.toLowerCase().includes('captcha') ||
!!document.querySelector('form#captcha-form') ||
!!document.querySelector('#recaptcha')`. -/
def detectCaptcha (d : RenderedDoc) : Bool :=
  strContains (toLowerStr d.title) "captcha" || d.hasCaptchaForm || d.hasRecaptcha

/-- Embeds the fallback badge loop of `extractResults`: walk every anchor
of the block in order and, while `directPdfUrl` is still falsy, take the
href of the first anchor whose trimmed text is exactly the marker. -/
def pickBadgeUrl (cur : Option String) (links : List Anchor) : Option String :=
  links.foldl
    (fun acc a =>
      if !(isTruthy acc) && trimStr a.text == "[PDF]" then Option.some a.href else acc)
    cur

/-- Embeds the per-block body of the `items.forEach` in `extractResults`:
title and paper URL from the title anchor (placeholder title when it is
missing), trimmed metadata text, direct-PDF detection on the
alternate-source slot (href containing `.pdf` case-insensitively, or
visible text containing the PDF marker), then the badge fallback. -/
def extractItem (it : ResultItem) : PaperRecord :=
  let title := match it.titleAnchor with
    | Option.some a => trimStr a.text
    | Option.none => "Unknown Title"
  let paperUrl := it.titleAnchor.map Anchor.href
  let meta := match it.metaText with
    | Option.some t => trimStr t
    | Option.none => ""
  let direct0 : Option String := match it.ggsAnchor with
    | Option.some a =>
      if strContains (toLowerStr a.href) ".pdf" || strContains a.text "PDF"
      then Option.some a.href else Option.none
    | Option.none => Option.none
  ⟨title, paperUrl, pickBadgeUrl direct0 it.allAnchors, meta⟩

/-- Embeds `extractResults` from src/scholar.js: first the CAPTCHA check
(throwing the block error), then the wait for the results container
(timing out when absent), then the in-order extraction of the result
blocks. -/
def extractResults (d : RenderedDoc) : Except ExtractError (List PaperRecord) :=
  if detectCaptcha d then Except.error ExtractError.blockedByAntiBot
  else if !d.hasResultsContainer then Except.error ExtractError.resultsTimeout
  else Except.ok (d.items.map extractItem)

/-- The `result.method` values of the per-record closure in src/index.js:
`'Direct [PDF] link'`, `'Found on paper page'`, or the initial `null`. -/
inductive Method
  | directLink
  | pageScan
  | none
deriving DecidableEq

/-- The per-record result object `{ title, downloaded, savedPath, method }`
built by the download closure in src/index.js. -/
structure AcquisitionOutcome where
  title : String
  downloaded : Bool
  savedPath : Option String
  method : Method
deriving DecidableEq

/-- The browsing-context operations a strategy-B unit performs on the
shared browser: whether `browser.newPage()` succeeds and whether
`pdfTab.close()` succeeds. -/
structure PageEnv where
  newPageOk : Bool
  closeOk : Bool
deriving DecidableEq

/-- Rejection causes of a download unit's promise: `browser.newPage()`
throwing before the `try`, or `pdfTab.close()` throwing in the
`finally`. -/
inductive UnitError
  | newPageFailed
  | closeFailed
deriving DecidableEq

/-- The initial `result` object of the closure:
`{ title, downloaded: false, savedPath: null, method: null }`. -/
def defaultOutcome (t : String) : AcquisitionOutcome :=
  ⟨t, false, Option.none, Method.none⟩

/-- Strategy B of the per-record closure in src/index.js: when
`paper.paperUrl` is truthy, open a fresh page (`newPage` failure rejects
the unit), run `findPDFOnPage` (the `scan` oracle; it catches its own
errors, so it is a total function returning the found URL or `null`),
fetch a truthy found URL with `downloadPDF` (the `fetch` oracle), and in
the `finally` close the tab — a close failure replaces the unit's result
with a rejection. -/
def runScanStage (p : PaperRecord) (fetch scan : String → Option String)
    (env : PageEnv) : Except UnitError AcquisitionOutcome :=
  match p.paperUrl with
  | Option.some v =>
    if v == "" then Except.ok (defaultOutcome p.title)
    else if !env.newPageOk then Except.error UnitError.newPageFailed
    else
      let r :=
        match scan v with
        | Option.some w =>
          if w == "" then defaultOutcome p.title
          else match fetch w with
            | Option.some saved => ⟨p.title, true, Option.some saved, Method.pageScan⟩
            | Option.none => defaultOutcome p.title
        | Option.none => defaultOutcome p.title
      if env.closeOk then Except.ok r else Except.error UnitError.closeFailed
  | Option.none => Except.ok (defaultOutcome p.title)

/-- Embeds one download unit — the async closure of
`targets.map(async (paper, i) => ...)` in src/index.js.  Strategy A: when
`paper.directPdfUrl` is truthy, call `downloadPDF` on it (the `fetch`
oracle returns the saved path or `null`); on success return immediately
with the direct-link outcome.  Otherwise fall through to strategy B. -/
def runUnit (p : PaperRecord) (fetch scan : String → Option String)
    (env : PageEnv) : Except UnitError AcquisitionOutcome :=
  match p.directPdfUrl with
  | Option.some u =>
    if u == "" then runScanStage p fetch scan env
    else
      match fetch u with
      | Option.some saved => Except.ok ⟨p.title, true, Option.some saved, Method.directLink⟩
      | Option.none => runScanStage p fetch scan env
  | Option.none => runScanStage p fetch scan env

/-- Settled state of one unit's promise (what `Promise.allSettled`
records): the fulfilled value, or `none` for a rejection. -/
def fulfilledValue (r : Except UnitError AcquisitionOutcome) :
    Option AcquisitionOutcome :=
  match r with
  | Except.ok v => Option.some v
  | Except.error _ => Option.none

/-- Spawns one unit per record, giving unit `i` its own network results
and browsing context (`fetch i`, `scan i`, `env i`), mirroring
`targets.map(async (paper, i) => ...)`. -/
def runBatchAux (fetch scan : Nat → String → Option String)
    (env : Nat → PageEnv) : Nat → List PaperRecord →
    List (Except UnitError AcquisitionOutcome)
  | _, [] => []
  | i, p :: rest =>
    runUnit p (fetch i) (scan i) (env i) :: runBatchAux fetch scan env (i + 1) rest

/-- Embeds the fan-out of src/index.js: `targets = papers.slice(0,
maxResults)` followed by one concurrent unit per target, awaited with
`Promise.allSettled` (every unit gets a settled slot, fulfilled or
rejected). -/
def runBatch (papers : List PaperRecord) (limit : Nat)
    (fetch scan : Nat → String → Option String) (env : Nat → PageEnv) :
    List (Except UnitError AcquisitionOutcome) :=
  runBatchAux fetch scan env 0 (papers.take limit)

/-- Embeds the aggregation loop after `Promise.allSettled`:
`results.forEach((r) => { if (r.status === 'fulfilled')
downloadResults.push(r.value); })` — rejected units contribute nothing. -/
def downloadResultsOf (papers : List PaperRecord) (limit : Nat)
    (fetch scan : Nat → String → Option String) (env : Nat → PageEnv) :
    List AcquisitionOutcome :=
  (runBatch papers limit fetch scan env).filterMap fulfilledValue

/-- The aggregate report of the design document.  `elapsedSeconds` is
wall-clock time, outside the pure model, and is omitted. -/
structure CrawlSummary where
  totalFound : Nat
  totalDownloaded : Nat
  totalFailed : Nat
  outcomes : List AcquisitionOutcome
deriving DecidableEq

/-- Embeds the counts computed by `printSummary` in src/index.js:
`successful = results.filter(r => r.downloaded)`,
`failed = results.filter(r => !r.downloaded)`, and the printed
`results.length` as the found total. -/
def printSummary (results : List AcquisitionOutcome) : CrawlSummary :=
  ⟨results.length,
   (results.filter (fun r => r.downloaded)).length,
   (results.filter (fun r => !r.downloaded)).length,
   results⟩

example :
    runUnit ⟨"T", Option.some "p", Option.some "d", ""⟩
      (fun u => if u == "" then Option.none else Option.some "S")
      (fun _ => Option.none) ⟨true, true⟩
      = Except.ok ⟨"T", true, Option.some "S", Method.directLink⟩ := rfl
example :
    runUnit ⟨"A", Option.some "p", Option.none, ""⟩
      (fun _ => Option.none) (fun _ => Option.none) ⟨true, false⟩
      = Except.error UnitError.closeFailed := rfl
example :
    downloadResultsOf [⟨"A", Option.some "p", Option.none, ""⟩] 1
      (fun _ _ => Option.none) (fun _ _ => Option.none) (fun _ => ⟨true, false⟩) = [] := rfl
example :
    extractResults ⟨"CAPTCHA check", false, false, true, []⟩
      = Except.error ExtractError.blockedByAntiBot := by decide
example :
    extractResults ⟨"q - results", false, false, true,
        [⟨Option.none, Option.none, Option.none, []⟩]⟩
      = Except.ok [⟨"Unknown Title", Option.none, Option.none, ""⟩] := by decide

/-- Whitespace characters are not in the safe output class. -/
theorem ws_not_safe (c : Char) (h : jsWhitespace c = true) : safeChar c = false := by
  simp only [jsWhitespace, Bool.or_eq_true, beq_iff_eq] at h
  rcases h with ((((((((((((((((((((((((rfl | rfl) | rfl) | rfl) | rfl) | rfl) | rfl) | rfl) | rfl) | rfl) | rfl) | rfl) | rfl) | rfl) | rfl) | rfl) | rfl) | rfl) | rfl) | rfl) | rfl) | rfl) | rfl) | rfl) | rfl) <;> decide

/-- Safe characters are not whitespace. -/
theorem safe_not_ws (c : Char) (h : safeChar c = true) : jsWhitespace c = false := by
  cases hw : jsWhitespace c with
  | false => rfl
  | true => rw [ws_not_safe c hw] at h; exact absurd h (by simp)

/-- Safe characters survive the stripping replace. -/
theorem safe_keep (c : Char) (h : safeChar c = true) : keepChar c = true := by
  simp only [safeChar, Bool.or_eq_true] at h
  simp only [keepChar, Bool.or_eq_true]
  tauto

/-- A kept, non-whitespace character is in the safe output class. -/
theorem keep_not_ws_safe (c : Char) (hk : keepChar c = true)
    (hw : jsWhitespace c = false) : safeChar c = true := by
  simp only [keepChar, Bool.or_eq_true] at hk
  simp only [safeChar, Bool.or_eq_true]
  rcases hk with ((((h | h) | h) | h) | h) | h
  · exact Or.inl (Or.inl (Or.inl (Or.inl h)))
  · exact Or.inl (Or.inl (Or.inl (Or.inr h)))
  · exact Or.inl (Or.inl (Or.inr h))
  · rw [hw] at h; exact absurd h (by simp)
  · exact Or.inl (Or.inr h)
  · exact Or.inr h

/-- Every character produced by the run-collapsing replace, applied to kept
characters, is in the safe output class. -/
theorem collapse_chars (l : List Char) (b : Bool)
    (hl : ∀ c ∈ l, keepChar c = true) :
    ∀ c ∈ collapseWsRuns b l, safeChar c = true := by
  induction l generalizing b with
  | nil => intro c hc; simp [collapseWsRuns] at hc
  | cons a t ih =>
    intro c hc
    have ha := hl a (by simp)
    have ht : ∀ d ∈ t, keepChar d = true := fun d hd => hl d (by simp [hd])
    by_cases hws : jsWhitespace a = true
    · cases b with
      | true =>
        simp only [collapseWsRuns, hws, if_pos rfl] at hc
        exact ih true ht c (by simpa using hc)
      | false =>
        simp only [collapseWsRuns, hws, if_pos rfl] at hc
        rcases List.mem_cons.mp hc with rfl | hc2
        · decide
        · exact ih true ht c hc2
    · have hws2 : jsWhitespace a = false := by simpa using hws
      simp only [collapseWsRuns, hws2, Bool.false_eq_true, if_false] at hc
      rcases List.mem_cons.mp hc with rfl | hc2
      · exact keep_not_ws_safe c ha hws2
      · exact ih false ht c hc2

/-- The run-collapsing replace is the identity on whitespace-free input. -/
theorem collapse_id_of_no_ws (l : List Char) (b : Bool)
    (hl : ∀ c ∈ l, jsWhitespace c = false) : collapseWsRuns b l = l := by
  induction l generalizing b with
  | nil => rfl
  | cons a t ih =>
    have ha := hl a (by simp)
    have ht : ∀ d ∈ t, jsWhitespace d = false := fun d hd => hl d (by simp [hd])
    simp [collapseWsRuns, ha, ih false ht]

/-- Every character of a sanitized filename is in `[A-Za-z0-9_-]`. -/
theorem sanitize_chars (x : String) :
    ∀ c ∈ (sanitizeFilename x).data, safeChar c = true := by
  intro c hc
  have hc2 : c ∈ collapseWsRuns false (x.data.filter keepChar) :=
    List.take_subset 80 _ hc
  exact collapse_chars _ false (fun d hd => List.of_mem_filter hd) c hc2

/-- A sanitized filename has at most 80 characters. -/
theorem sanitize_len (x : String) : (sanitizeFilename x).data.length ≤ 80 :=
  List.length_take_le 80 _

/-- Rebuilding a string from its character data gives the string back. -/
theorem string_mk_data (s : String) : String.mk s.data = s := rfl

/-- Sanitization is idempotent. -/
theorem sanitize_idem (x : String) :
    sanitizeFilename (sanitizeFilename x) = sanitizeFilename x := by
  have hsafe := sanitize_chars x
  have h1 : (sanitizeFilename x).data.filter keepChar = (sanitizeFilename x).data :=
    List.filter_eq_self.mpr (fun c hc => safe_keep c (hsafe c hc))
  have h2 : collapseWsRuns false (sanitizeFilename x).data = (sanitizeFilename x).data :=
    collapse_id_of_no_ws _ false (fun c hc => safe_not_ws c (hsafe c hc))
  have h3 : (sanitizeFilename x).data.take 80 = (sanitizeFilename x).data :=
    List.take_of_length_le (sanitize_len x)
  show String.mk _ = _
  rw [h1, h2, h3, string_mk_data]

/-- The look-ahead and flag formulations of run collapsing agree. -/
theorem collapseSpec_eq (l : List Char) : collapseWsSpec l = collapseWsRuns false l := by
  induction l with
  | nil => rfl
  | cons c tail ih =>
    cases hws : jsWhitespace c with
    | false =>
      cases tail with
      | nil => simp [collapseWsSpec, collapseWsRuns, hws]
      | cons d rest => simp [collapseWsSpec, collapseWsRuns, hws, ih]
    | true =>
      cases tail with
      | nil => simp [collapseWsSpec, collapseWsRuns, hws]
      | cons d rest =>
        cases hd : jsWhitespace d with
        | false =>
          rw [show collapseWsSpec (c :: d :: rest)
              = '_' :: collapseWsSpec (d :: rest) by simp [collapseWsSpec, hws, hd]]
          simp [collapseWsRuns, hws, hd, ih]
        | true =>
          rw [show collapseWsSpec (c :: d :: rest) = collapseWsSpec (d :: rest) by
            simp [collapseWsSpec, hws, hd]]
          rw [ih]
          simp [collapseWsRuns, hws, hd]

/-- The spec-side and code-side kept-character classes agree. -/
theorem keep_class_eq (c : Char) :
    (c.isAlphanum || jsWhitespace c || c == '-' || c == '_') = keepChar c := by
  simp only [Char.isAlphanum, Char.isAlpha, keepChar]
  cases c.isUpper <;> cases c.isLower <;> cases c.isDigit <;>
    cases jsWhitespace c <;> simp

/-- The code's sanitization equals the amended spec description. -/
theorem sanitize_eq_spec (x : String) : sanitizeFilename x = specSanitize x := by
  show String.mk _ = String.mk _
  rw [List.filter_congr (fun c _ => keep_class_eq c), collapseSpec_eq]

/-- Filtering a predicate and its negation splits the length of a list. -/
theorem length_filter_not_add {α : Type} (p : α → Bool) (l : List α) :
    (l.filter p).length + (l.filter (fun a => !p a)).length = l.length := by
  induction l with
  | nil => rfl
  | cons a t ih => cases hp : p a <;> simp [List.filter_cons, hp] <;> omega

/-- C7 counterexample: the claim's parenthetical description of
sanitization (strip every character outside the literal class
`[A-Za-z0-9 _-]`, then collapse whitespace runs) disagrees with
`sanitizeFilename` on a tab: the code keeps the tab as whitespace and
turns it into an underscore, while the described algorithm strips it. -/
theorem c7_tab_counterexample :
    sanitizeFilename "a\tb" = "a_b" ∧ claimSanitizeDescr "a\tb" = "ab" ∧
    sanitizeFilename "a\tb" ≠ claimSanitizeDescr "a\tb" :=
  ⟨by decide, by decide, by decide⟩

/-- C7 (amended): sanitization is idempotent, its output matches
`[A-Za-z0-9_-]{0,80}`, and it equals the amended description (every
character that is neither alphanumeric, whitespace, underscore nor
hyphen stripped; runs of whitespace collapsed to a single underscore;
result truncated to 80 characters). -/
theorem c7_sanitize_idempotent (x : String) :
    sanitizeFilename (sanitizeFilename x) = sanitizeFilename x
    ∧ matchesSafeName (sanitizeFilename x)
    ∧ sanitizeFilename x = specSanitize x :=
  ⟨sanitize_idem x,
   ⟨sanitize_len x, List.all_eq_true.mpr (fun c hc => sanitize_chars x c hc)⟩,
   sanitize_eq_spec x⟩

/-- C9: the crawl summary is a pure function of the outcome list and
satisfies `totalDownloaded + totalFailed = len(outcomes)` and
`totalDownloaded ≤ totalFound` for every possible outcome list. -/
theorem c9_summary_invariants (results : List AcquisitionOutcome) :
    (printSummary results).totalDownloaded + (printSummary results).totalFailed
        = (printSummary results).outcomes.length
    ∧ (printSummary results).totalDownloaded ≤ (printSummary results).totalFound := by
  refine ⟨?_, ?_⟩
  · show (results.filter (fun r => r.downloaded)).length
        + (results.filter (fun r => !r.downloaded)).length = results.length
    exact length_filter_not_add (fun r => r.downloaded) results
  · show (results.filter (fun r => r.downloaded)).length ≤ results.length
    exact List.length_filter_le _ results

/-- C2 (code bug): `downloadPDF` accepts a payload whose first five bytes
are not `%PDF-`.  The check `buffer.toString('ascii', 0, 5) !== '%PDF-'`
uses Node's `'ascii'` decoding, which clears the top bit of each byte, so
the byte `0xA5` (165) passes as `%` (37): a response with status ok,
content type `application/pdf` and body `A5 50 44 46 2D` is written to
disk and its path returned, although the claim (and the code's own
comment, "Validate PDF magic bytes") requires rejection. -/
theorem c2_ascii_masked_signature_accepted :
    downloadPDF
        (Option.some ⟨true, Option.some "application/pdf", [165, 80, 68, 70, 45]⟩)
        "paper"
      = Option.some (outputPath "paper", [165, 80, 68, 70, 45])
    ∧ [165, 80, 68, 70, 45].take 5 ≠ pdfMagic :=
  ⟨by decide, by decide⟩

/-- C10: the sanitized filename contains no path separator and no dot,
and the only path `downloadPDF` ever writes to is the configured output
directory joined with the sanitized name and the `.pdf` extension, so no
title can direct a write outside the output directory or under another
extension. -/
theorem c10_path_confinement (title : String) :
    ((sanitizeFilename title).data.all
        (fun c => !(c == '/' || c == '\\' || c == '.'))) = true
    ∧ ∀ (resp : Option FetchResponse) (saved : String × List Nat),
        downloadPDF resp title = Option.some saved →
        saved.1 = OUTPUT_DIR ++ "/" ++ sanitizeFilename title ++ ".pdf" := by
  constructor
  · apply List.all_eq_true.mpr
    intro c hc
    have hs := sanitize_chars title c hc
    simp only [Bool.not_eq_true', Bool.or_eq_false_iff, beq_eq_false_iff_ne]
    refine ⟨⟨fun h => ?_, fun h => ?_⟩, fun h => ?_⟩ <;>
      (subst h; exact absurd hs (by decide))
  · intro resp saved h
    match resp with
    | Option.none => exact absurd h (by simp [downloadPDF])
    | Option.some r =>
      simp only [downloadPDF] at h
      split at h
      · exact absurd h (by simp)
      · split at h
        · exact absurd h (by simp)
        · split at h
          · exact absurd h (by simp)
          · cases h; rfl

/-- C10 witness: a concrete successful download of a title containing a
path separator lands exactly at the joined, sanitized path. -/
theorem c10_path_confinement_witness :
    outputPath "a/b" = OUTPUT_DIR ++ "/" ++ sanitizeFilename "a/b" ++ ".pdf" :=
  (c10_path_confinement "a/b").2
    (Option.some ⟨true, Option.some "application/pdf", [37, 80, 68, 70, 45]⟩)
    (outputPath "a/b", [37, 80, 68, 70, 45]) (by decide)

/-- Strategy A outcome test: the direct link is truthy and its fetch
returned a saved path (`if (paper.directPdfUrl) { const saved = await
downloadPDF(...); if (saved) ... }` both succeeding). -/
def directSuccess (p : PaperRecord) (fetch : String → Option String) : Bool :=
  match p.directPdfUrl with
  | Option.some u => !(u == "") && (fetch u).isSome
  | Option.none => false

/-- When strategy A does not succeed, the unit runs the page-scan stage. -/
theorem runUnit_eq_scan (p : PaperRecord) (fetch scan : String → Option String)
    (env : PageEnv) (hA : directSuccess p fetch = false) :
    runUnit p fetch scan env = runScanStage p fetch scan env := by
  unfold runUnit
  cases hd : p.directPdfUrl with
  | none => rfl
  | some u =>
    unfold directSuccess at hA
    rw [hd] at hA
    rcases Bool.and_eq_false_iff.mp hA with h | h
    · have hu : (u == "") = true := by simpa using h
      simp [hu]
    · have hu : fetch u = Option.none := Option.not_isSome_iff_eq_none.mp (by simpa using h)
      cases hv : (u == "") <;> simp [hv, hu]

/-- With the paper URL truthy and page creation working, a close failure
becomes the unit's rejection, whatever the scan and fetch did. -/
theorem runScanStage_closeFail (p : PaperRecord) (fetch scan : String → Option String)
    (env : PageEnv) (hp : isTruthy p.paperUrl = true) (hnp : env.newPageOk = true)
    (hc : env.closeOk = false) :
    runScanStage p fetch scan env = Except.error UnitError.closeFailed := by
  unfold runScanStage
  cases hv : p.paperUrl with
  | none => rw [hv] at hp; exact absurd hp (by simp [isTruthy])
  | some v =>
    have hv2 : (v == "") = false := by
      rw [hv] at hp; simpa [isTruthy] using hp
    simp [hv2, hnp, hc]

/-- With a working browsing context the page-scan stage always fulfils. -/
theorem runScanStage_ok (p : PaperRecord) (fetch scan : String → Option String)
    (env : PageEnv) (hnp : env.newPageOk = true) (hcl : env.closeOk = true) :
    ∃ o, runScanStage p fetch scan env = Except.ok o := by
  unfold runScanStage
  cases hv : p.paperUrl with
  | none => exact ⟨_, rfl⟩
  | some v =>
    cases hv2 : (v == "") with
    | true => simp [hv2]
    | false => simp [hv2, hnp, hcl]

/-- With a working browsing context a unit's promise always fulfils. -/
theorem runUnit_ok (p : PaperRecord) (fetch scan : String → Option String)
    (env : PageEnv) (hnp : env.newPageOk = true) (hcl : env.closeOk = true) :
    ∃ o, runUnit p fetch scan env = Except.ok o := by
  unfold runUnit
  cases hd : p.directPdfUrl with
  | none => exact runScanStage_ok p fetch scan env hnp hcl
  | some u =>
    cases hu : (u == "") with
    | true => simpa [hu] using runScanStage_ok p fetch scan env hnp hcl
    | false =>
      cases hf : fetch u with
      | none => simpa [hu, hf] using runScanStage_ok p fetch scan env hnp hcl
      | some saved =>
        refine ⟨⟨p.title, true, Option.some saved, Method.directLink⟩, ?_⟩
        simp [hu, hf]

/-- The page-scan stage's fulfilled values: the default negative outcome
or a page-scan success. -/
theorem runScanStage_cases (p : PaperRecord) (fetch scan : String → Option String)
    (env : PageEnv) (o : AcquisitionOutcome)
    (h : runScanStage p fetch scan env = Except.ok o) :
    o = defaultOutcome p.title
    ∨ ∃ saved, o = ⟨p.title, true, Option.some saved, Method.pageScan⟩ := by
  unfold runScanStage at h
  cases hv : p.paperUrl with
  | none => rw [hv] at h; exact Or.inl (Except.ok.inj h).symm
  | some v =>
    rw [hv] at h
    cases hv2 : (v == "") with
    | true => simp only [hv2, if_pos rfl] at h; exact Or.inl (Except.ok.inj h).symm
    | false =>
      simp only [hv2] at h
      cases hnp : env.newPageOk with
      | false => rw [hnp] at h; simp at h
      | true =>
        rw [hnp] at h
        simp only [Bool.not_true, Bool.false_eq_true, if_false] at h
        cases hcl : env.closeOk with
        | false => rw [hcl] at h; simp at h
        | true =>
          rw [hcl] at h
          simp only [if_pos rfl] at h
          have hval := Except.ok.inj h
          cases hs : scan v with
          | none => rw [hs] at hval; exact Or.inl hval.symm
          | some w =>
            rw [hs] at hval
            cases hw : (w == "") with
            | true => simp only [hw, if_pos rfl] at hval; exact Or.inl hval.symm
            | false =>
              simp only [hw, Bool.false_eq_true, if_false] at hval
              cases hf : fetch w with
              | none => rw [hf] at hval; exact Or.inl hval.symm
              | some saved => rw [hf] at hval; exact Or.inr ⟨saved, hval.symm⟩

/-- The fulfilled values a unit can produce: the default negative
outcome, a direct-link success, or a page-scan success. -/
theorem runUnit_cases (p : PaperRecord) (fetch scan : String → Option String)
    (env : PageEnv) (o : AcquisitionOutcome)
    (h : runUnit p fetch scan env = Except.ok o) :
    o = defaultOutcome p.title
    ∨ (∃ saved, o = ⟨p.title, true, Option.some saved, Method.directLink⟩)
    ∨ (∃ saved, o = ⟨p.title, true, Option.some saved, Method.pageScan⟩) := by
  unfold runUnit at h
  cases hd : p.directPdfUrl with
  | none =>
    rw [hd] at h
    rcases runScanStage_cases p fetch scan env o h with h2 | h2
    · exact Or.inl h2
    · exact Or.inr (Or.inr h2)
  | some u =>
    rw [hd] at h
    cases hu : (u == "") with
    | true =>
      simp only [hu, if_pos rfl] at h
      rcases runScanStage_cases p fetch scan env o h with h2 | h2
      · exact Or.inl h2
      · exact Or.inr (Or.inr h2)
    | false =>
      simp only [hu, Bool.false_eq_true, if_false] at h
      cases hf : fetch u with
      | none =>
        rw [hf] at h
        rcases runScanStage_cases p fetch scan env o h with h2 | h2
        · exact Or.inl h2
        · exact Or.inr (Or.inr h2)
      | some saved =>
        rw [hf] at h
        exact Or.inr (Or.inl ⟨saved, (Except.ok.inj h).symm⟩)

/-- C6: every outcome the per-record resolver fulfils with satisfies
`downloaded = true` iff a saved location is present and the method is
not `None`. -/
theorem c6_outcome_invariant (p : PaperRecord) (fetch scan : String → Option String)
    (env : PageEnv) (o : AcquisitionOutcome)
    (h : runUnit p fetch scan env = Except.ok o) :
    o.downloaded = true ↔ (o.savedPath.isSome = true ∧ o.method ≠ Method.none) := by
  rcases runUnit_cases p fetch scan env o h with rfl | ⟨saved, rfl⟩ | ⟨saved, rfl⟩
  · exact ⟨fun hfalse => absurd hfalse (by simp [defaultOutcome]),
      fun ⟨h1, _⟩ => absurd h1 (by simp [defaultOutcome])⟩
  · exact ⟨fun _ => ⟨rfl, fun hx => Method.noConfusion hx⟩, fun _ => rfl⟩
  · exact ⟨fun _ => ⟨rfl, fun hx => Method.noConfusion hx⟩, fun _ => rfl⟩

/-- C6 witness: the invariant evaluated on a concrete negative outcome of
a record with no URLs at all. -/
theorem c6_outcome_invariant_witness :
    (defaultOutcome "T").downloaded = true ↔
      ((defaultOutcome "T").savedPath.isSome = true
        ∧ (defaultOutcome "T").method ≠ Method.none) :=
  c6_outcome_invariant ⟨"T", Option.none, Option.none, ""⟩ (fun _ => Option.none)
    (fun _ => Option.none) ⟨true, true⟩ (defaultOutcome "T") rfl

/-- Every spawned unit occupies one settled slot, fulfilled or not. -/
theorem runBatchAux_length (f s : Nat → String → Option String) (e : Nat → PageEnv) :
    ∀ (j : Nat) (l : List PaperRecord), (runBatchAux f s e j l).length = l.length := by
  intro j l
  induction l generalizing j with
  | nil => rfl
  | cons q t ih => simpa [runBatchAux] using ih (j + 1)

/-- The settled slot of index `i` is exactly the unit run on record `i`
with its own oracles. -/
theorem runBatchAux_get (f s : Nat → String → Option String) (e : Nat → PageEnv) :
    ∀ (l : List PaperRecord) (j i : Nat) (hi : i < l.length),
      (runBatchAux f s e j l).get? i
        = Option.some (runUnit (l.get ⟨i, hi⟩) (f (j + i)) (s (j + i)) (e (j + i))) := by
  intro l
  induction l with
  | nil => intro j i hi; exact absurd hi (by simp)
  | cons q t ih =>
    intro j i hi
    cases i with
    | zero => rfl
    | succ i =>
      have hi2 : i < t.length := by simpa using hi
      have := ih (j + 1) i hi2
      have harith : j + 1 + i = j + (i + 1) := by omega
      rw [harith] at this
      simpa [runBatchAux] using this

/-- C8 counterexample: a failing `pdfTab.close()` in the `finally` is not
caught — it rejects the unit's promise (the unit's outcome is lost)
instead of being logged and swallowed.  Concretely: a record with only a
paper-page URL, a scan finding nothing, and a close that throws. -/
theorem c8_close_failure_rejects_unit :
    runUnit ⟨"A", Option.some "p", Option.none, ""⟩ (fun _ => Option.none)
      (fun _ => Option.none) ⟨true, false⟩ = Except.error UnitError.closeFailed := rfl

/-- C8 (amended): whenever the page-scan strategy opens a context —
strategy A did not succeed, the paper URL is truthy, and page creation
worked — the close is attempted on every path: if the close fails the
unit's promise is rejected with that failure (so the failure propagates
to the unit, uncaught and unlogged), and if it succeeds the unit fulfils.
`Promise.allSettled` still gives every selected record a settled slot, so
the batch itself is never aborted. -/
theorem c8_close_on_every_path (p : PaperRecord) (fetch scan : String → Option String)
    (env : PageEnv) (hA : directSuccess p fetch = false)
    (hp : isTruthy p.paperUrl = true) (hnp : env.newPageOk = true) :
    (env.closeOk = false →
      runUnit p fetch scan env = Except.error UnitError.closeFailed)
    ∧ (env.closeOk = true → ∃ o, runUnit p fetch scan env = Except.ok o)
    ∧ ∀ (papers : List PaperRecord) (k : Nat)
        (fb sb : Nat → String → Option String) (eb : Nat → PageEnv),
        (runBatch papers k fb sb eb).length = (papers.take k).length := by
  refine ⟨fun hc => ?_, fun hc => runUnit_ok p fetch scan env hnp hc, ?_⟩
  · rw [runUnit_eq_scan p fetch scan env hA]
    exact runScanStage_closeFail p fetch scan env hp hnp hc
  · intro papers k fb sb eb
    exact runBatchAux_length fb sb eb 0 (papers.take k)

/-- C8 witness: the same unit with a working close fulfils. -/
theorem c8_close_on_every_path_witness :
    ∃ o, runUnit ⟨"A", Option.some "p", Option.none, ""⟩ (fun _ => Option.none)
      (fun _ => Option.none) ⟨true, true⟩ = Except.ok o :=
  (c8_close_on_every_path ⟨"A", Option.some "p", Option.none, ""⟩
    (fun _ => Option.none) (fun _ => Option.none) ⟨true, true⟩ rfl rfl rfl).2.1 rfl

/-- When every fetch of a unit fails (bad status, wrong content type or
bad signature make `downloadPDF` return `null`), the unit fulfils with
the default negative outcome, whatever the scan found, provided its
context operations work. -/
theorem runUnit_fetch_none (p : PaperRecord) (fetch scan : String → Option String)
    (env : PageEnv) (hnp : env.newPageOk = true) (hcl : env.closeOk = true)
    (hf : ∀ u, fetch u = Option.none) :
    runUnit p fetch scan env = Except.ok (defaultOutcome p.title) := by
  have hscan : runScanStage p fetch scan env = Except.ok (defaultOutcome p.title) := by
    unfold runScanStage
    cases hv : p.paperUrl with
    | none => rfl
    | some v =>
      cases hv2 : (v == "") with
      | true => simp [hv2]
      | false =>
        cases hs : scan v with
        | none => simp [hv2, hnp, hcl, hs]
        | some w =>
          cases hw : (w == "") with
          | true => simp [hv2, hnp, hcl, hs, hw]
          | false => simp [hv2, hnp, hcl, hs, hw, hf w]
  have hAfalse : directSuccess p fetch = false := by
    unfold directSuccess
    cases hd : p.directPdfUrl with
    | none => rfl
    | some u => simp [hf u]
  rw [runUnit_eq_scan p fetch scan env hAfalse]
  exact hscan

/-- Under working context operations every settled slot is fulfilled, so
the pushed outcome list keeps one entry per spawned unit. -/
theorem fulfilled_aux_length (f s : Nat → String → Option String) (e : Nat → PageEnv)
    (he : ∀ n, (e n).newPageOk = true ∧ (e n).closeOk = true) :
    ∀ (l : List PaperRecord) (j : Nat),
      ((runBatchAux f s e j l).filterMap fulfilledValue).length = l.length := by
  intro l
  induction l with
  | nil => intro j; rfl
  | cons q t ih =>
    intro j
    obtain ⟨o, ho⟩ := runUnit_ok q (f j) (s j) (e j) (he j).1 (he j).2
    simp [runBatchAux, ho, List.filterMap_cons, fulfilledValue, ih (j + 1)]

/-- Under working context operations, the outcome at index `i` of the
pushed list belongs to record `i`; if all of that unit's fetches fail it
is the default negative outcome. -/
theorem fulfilled_aux_get (f s : Nat → String → Option String) (e : Nat → PageEnv)
    (he : ∀ n, (e n).newPageOk = true ∧ (e n).closeOk = true) :
    ∀ (l : List PaperRecord) (j i : Nat) (hi : i < l.length),
      (∀ u, f (j + i) u = Option.none) →
      ((runBatchAux f s e j l).filterMap fulfilledValue).get? i
        = Option.some (defaultOutcome (l.get ⟨i, hi⟩).title) := by
  intro l
  induction l with
  | nil => intro j i hi; exact absurd hi (by simp)
  | cons q t ih =>
    intro j i hi hfail
    cases i with
    | zero =>
      have hf0 : ∀ u, f j u = Option.none := by simpa using hfail
      have ho := runUnit_fetch_none q (f j) (s j) (e j) (he j).1 (he j).2 hf0
      simp [runBatchAux, ho, List.filterMap_cons, fulfilledValue]
    | succ i =>
      have hi2 : i < t.length := by simpa using hi
      obtain ⟨o, ho⟩ := runUnit_ok q (f j) (s j) (e j) (he j).1 (he j).2
      have harith : j + 1 + i = j + (i + 1) := by omega
      have := ih (j + 1) i hi2 (by rw [harith]; exact hfail)
      simpa [runBatchAux, ho, List.filterMap_cons, fulfilledValue] using this

/-- C4 counterexample: a record whose unit's context close throws yields
no outcome at all — the settled result is a rejection, the aggregation
drops it, and the outcome list is shorter than the selected records. -/
theorem c4_rejected_unit_drops_outcome :
    (downloadResultsOf [⟨"A", Option.some "p", Option.none, ""⟩] 1
        (fun _ _ => Option.none) (fun _ _ => Option.none)
        (fun _ => ⟨true, false⟩)).length = 0
    ∧ ([(⟨"A", Option.some "p", Option.none, ""⟩ : PaperRecord)].take 1).length = 1 :=
  ⟨rfl, rfl⟩

/-- C4 (amended): the summary is produced only after every unit settles;
listed internal failures (all fetches returning nothing) fulfil that
unit with a `downloaded = false` outcome and never abort sibling units or
the batch; and provided every unit's context creation and close succeed,
the outcome list has exactly one outcome per selected record, in order
(a unit rejected by a context-operation failure is instead dropped from
the list). -/
theorem c4_settled_isolation (papers : List PaperRecord) (k : Nat)
    (f s : Nat → String → Option String) (e : Nat → PageEnv)
    (he : ∀ n, (e n).newPageOk = true ∧ (e n).closeOk = true) :
    (downloadResultsOf papers k f s e).length = (papers.take k).length
    ∧ ∀ (i : Nat) (hi : i < (papers.take k).length),
        (∀ u, f i u = Option.none) →
        (downloadResultsOf papers k f s e).get? i
          = Option.some (defaultOutcome (((papers.take k).get ⟨i, hi⟩).title)) := by
  constructor
  · exact fulfilled_aux_length f s e he (papers.take k) 0
  · intro i hi hfail
    have := fulfilled_aux_get f s e he (papers.take k) 0 i hi
      (by rw [Nat.zero_add]; exact hfail)
    exact this

/-- C4 witness: a one-record batch whose fetches all fail still settles
to exactly one negative outcome. -/
theorem c4_settled_isolation_witness :
    (downloadResultsOf [⟨"A", Option.some "p", Option.none, ""⟩] 1
        (fun _ _ => Option.none) (fun _ _ => Option.none)
        (fun _ => ⟨true, true⟩)).get? 0
      = Option.some (defaultOutcome "A") :=
  (c4_settled_isolation [⟨"A", Option.some "p", Option.none, ""⟩] 1
      (fun _ _ => Option.none) (fun _ _ => Option.none) (fun _ => ⟨true, true⟩)
      (fun _ => ⟨rfl, rfl⟩)).2 0 (by decide) (fun _ => rfl)

/-- C3: any rendered document whose title contains "captcha"
case-insensitively, or that carries the CAPTCHA form or the reCAPTCHA
widget, makes `extractResults` fail with the anti-bot block error before
any record extraction: no record list is ever returned for it, whatever
its result blocks contain. -/
theorem c3_block_short_circuit (d : RenderedDoc)
    (h : strContains (toLowerStr d.title) "captcha" = true
      ∨ d.hasCaptchaForm = true ∨ d.hasRecaptcha = true) :
    extractResults d = Except.error ExtractError.blockedByAntiBot
    ∧ ∀ records, extractResults d ≠ Except.ok records := by
  have hc : detectCaptcha d = true := by
    unfold detectCaptcha
    rcases h with h | h | h <;> simp [h]
  constructor
  · unfold extractResults; rw [hc]; simp
  · intro records hrec
    unfold extractResults at hrec
    rw [hc] at hrec
    simp at hrec

/-- C3 witness: a concrete CAPTCHA interstitial (detected through its
title, with result blocks present) is blocked. -/
theorem c3_block_short_circuit_witness :
    extractResults ⟨"Blocked - CAPTCHA check", false, false, true,
        [⟨Option.none, Option.none, Option.none, []⟩]⟩
      = Except.error ExtractError.blockedByAntiBot :=
  (c3_block_short_circuit ⟨"Blocked - CAPTCHA check", false, false, true,
      [⟨Option.none, Option.none, Option.none, []⟩]⟩ (Or.inl (by decide))).1

/-- C5: extraction returns one record per result block, in the block
order of the document, and the orchestrator attempts acquisition exactly
for the first `k` of them in that order. -/
theorem c5_order_preserved_selection (d : RenderedDoc) (papers : List PaperRecord)
    (hx : extractResults d = Except.ok papers) (k : Nat)
    (f s : Nat → String → Option String) (e : Nat → PageEnv) :
    papers.length = d.items.length
    ∧ (∀ (i : Nat) (hi : i < papers.length), ∃ hi2 : i < d.items.length,
        papers.get ⟨i, hi⟩ = extractItem (d.items.get ⟨i, hi2⟩))
    ∧ (papers.take k).length = min k papers.length
    ∧ (runBatch papers k f s e).length = (papers.take k).length
    ∧ ∀ (i : Nat) (hi : i < (papers.take k).length), ∃ hip : i < papers.length,
        (runBatch papers k f s e).get? i
          = Option.some (runUnit (papers.get ⟨i, hip⟩) (f i) (s i) (e i)) := by
  have hpapers : papers = d.items.map extractItem := by
    unfold extractResults at hx
    cases hc : detectCaptcha d with
    | true => rw [hc] at hx; simp at hx
    | false =>
      rw [hc] at hx
      cases hcont : d.hasResultsContainer with
      | false => rw [hcont] at hx; simp at hx
      | true =>
        rw [hcont] at hx
        simp only [Bool.not_true, Bool.false_eq_true, if_false] at hx
        exact (Except.ok.inj hx).symm
  subst hpapers
  refine ⟨List.length_map _ _, fun i hi => ?_, ?_, ?_, fun i hi => ?_⟩
  · have hi2 : i < d.items.length := by simpa using hi
    refine ⟨hi2, ?_⟩
    simp [List.get_eq_getElem]
  · simp [List.length_take]
  · exact runBatchAux_length f s e 0 _
  · have hip : i < (d.items.map extractItem).length :=
      Nat.lt_of_lt_of_le hi (by simp [List.length_take])
    refine ⟨hip, ?_⟩
    have hb := runBatchAux_get f s e ((d.items.map extractItem).take k) 0 i hi
    rw [Nat.zero_add] at hb
    show (runBatchAux f s e 0 ((d.items.map extractItem).take k)).get? i
      = Option.some (runUnit ((d.items.map extractItem).get ⟨i, hip⟩) (f i) (s i) (e i))
    rw [hb]
    congr 2
    simp [List.get_eq_getElem, List.getElem_take]

/-- C5 witness: a one-block document extracts to the one placeholder
record and a batch of limit 1 attempts exactly that record. -/
theorem c5_order_preserved_selection_witness :
    ([(⟨"Unknown Title", Option.none, Option.none, ""⟩ : PaperRecord)]).length
      = ([(⟨Option.none, Option.none, Option.none, []⟩ : ResultItem)]).length :=
  (c5_order_preserved_selection
      ⟨"q - results", false, false, true, [⟨Option.none, Option.none, Option.none, []⟩]⟩
      [⟨"Unknown Title", Option.none, Option.none, ""⟩] (by decide) 1
      (fun _ _ => Option.none) (fun _ _ => Option.none) (fun _ => ⟨true, true⟩)).1

/-- C1: strict strategy precedence with short-circuit on first success.
The realizability hypotheses `fetch "" = none` and `scan "" = none`
record that fetching or navigating an empty URL always fails in the real
system, and the context hypotheses say the unit's page creation and close
work (their failure modes are C8's subject).  (1) A present direct link
whose fetch succeeds gives a `DirectLink` outcome, independent of the
scan oracle and the browsing context — the page-scan strategy is never
attempted.  (2) When the direct link is absent or its fetch fails, a
present paper page whose scan finds a PDF that fetches gives a
`PageScan` outcome.  (3) When neither strategy yields a document, the
outcome is the default `downloaded = false`, `methodUsed = None`. -/
theorem c1_strategy_precedence (p : PaperRecord) (fetch scan : String → Option String)
    (env : PageEnv) (hf0 : fetch "" = Option.none) (hs0 : scan "" = Option.none)
    (hnp : env.newPageOk = true) (hcl : env.closeOk = true) :
    (∀ u saved, p.directPdfUrl = Option.some u → fetch u = Option.some saved →
      ∀ (scan2 : String → Option String) (env2 : PageEnv),
        runUnit p fetch scan2 env2
          = Except.ok ⟨p.title, true, Option.some saved, Method.directLink⟩)
    ∧ (∀ v w saved,
        (p.directPdfUrl = Option.none
          ∨ ∃ u, p.directPdfUrl = Option.some u ∧ fetch u = Option.none) →
        p.paperUrl = Option.some v → scan v = Option.some w →
        fetch w = Option.some saved →
        runUnit p fetch scan env
          = Except.ok ⟨p.title, true, Option.some saved, Method.pageScan⟩)
    ∧ ((p.directPdfUrl = Option.none
          ∨ ∃ u, p.directPdfUrl = Option.some u ∧ fetch u = Option.none) →
       (p.paperUrl = Option.none
          ∨ ∃ v, p.paperUrl = Option.some v ∧
              (scan v = Option.none
                ∨ ∃ w, scan v = Option.some w ∧ fetch w = Option.none)) →
       runUnit p fetch scan env = Except.ok (defaultOutcome p.title)) := by
  have hAfail : ∀ (hA : p.directPdfUrl = Option.none
        ∨ ∃ u, p.directPdfUrl = Option.some u ∧ fetch u = Option.none),
      directSuccess p fetch = false := by
    intro hA
    unfold directSuccess
    rcases hA with hA | ⟨u, hA, hu⟩
    · rw [hA]
    · rw [hA]; simp [hu]
  refine ⟨fun u saved hd hf scan2 env2 => ?_, fun v w saved hA hv hsv hfw => ?_,
    fun hA hB => ?_⟩
  · have hu : (u == "") = false := by
      cases hue : (u == "") with
      | false => rfl
      | true =>
        have : u = "" := by simpa using hue
        subst this
        rw [hf0] at hf
        exact Option.noConfusion hf
    unfold runUnit
    rw [hd]
    simp [hu, hf]
  · have hv2 : (v == "") = false := by
      cases hve : (v == "") with
      | false => rfl
      | true =>
        have : v = "" := by simpa using hve
        subst this
        rw [hs0] at hsv
        exact Option.noConfusion hsv
    have hw2 : (w == "") = false := by
      cases hwe : (w == "") with
      | false => rfl
      | true =>
        have : w = "" := by simpa using hwe
        subst this
        rw [hf0] at hfw
        exact Option.noConfusion hfw
    rw [runUnit_eq_scan p fetch scan env (hAfail hA)]
    unfold runScanStage
    rw [hv]
    simp [hv2, hnp, hcl, hsv, hw2, hfw]
  · rw [runUnit_eq_scan p fetch scan env (hAfail hA)]
    unfold runScanStage
    rcases hB with hB | ⟨v, hB, hrest⟩
    · rw [hB]
    · rw [hB]
      cases hv2 : (v == "") with
      | true => simp [hv2]
      | false =>
        rcases hrest with hs | ⟨w, hs, hfw⟩
        · simp [hv2, hnp, hcl, hs]
        · cases hw2 : (w == "") with
          | true => simp [hv2, hnp, hcl, hs, hw2]
          | false => simp [hv2, hnp, hcl, hs, hw2, hfw]

/-- C1 witness: a record with both URLs, a fetch that succeeds on the
direct link, and a scan that would find nothing, resolves as a
direct-link success. -/
theorem c1_strategy_precedence_witness :
    runUnit ⟨"T", Option.some "p", Option.some "d", ""⟩
        (fun u => if u == "" then Option.none else Option.some "S")
        (fun _ => Option.none) ⟨true, true⟩
      = Except.ok ⟨"T", true, Option.some "S", Method.directLink⟩ :=
  (c1_strategy_precedence ⟨"T", Option.some "p", Option.some "d", ""⟩
      (fun u => if u == "" then Option.none else Option.some "S")
      (fun _ => Option.none) ⟨true, true⟩ rfl rfl rfl rfl).1
    "d" "S" rfl rfl (fun _ => Option.none) ⟨true, true⟩
